import Mathlib

/-
Verification of the Posture Scoring & Session Analysis Engine
(src/core/posture_analyzer.py) against its specification.

The Python module is shallowly embedded over ℚ:
- Python floats are modelled as exact rationals;
- Python dicts (joint-angle samples, the per-joint configuration tables,
  counters) are modelled as association lists in insertion order, looked up
  with `getA` (first match, mirroring unique-key dicts);
- Python's ZeroDivisionError (float division by zero) is modelled by
  returning `Option.none`;
- numpy's `std` takes a real square root; the stability analyzer is
  parameterized by the square-root function `sq` and concrete instances use
  `ratSqrt`, which agrees with the real square root on the perfect-square
  rationals appearing in every concrete input below and is, like the real
  square root, nonnegative everywhere (the only fact the general theorems
  use about it);
- the skfuzzy control system (Mamdani inference: clip each rule's output
  set at the antecedent degree, aggregate by pointwise maximum, defuzzify
  by centroid over the integer-discretized universe `0..100` used by the
  source's `np.arange(0, 101, 1)`) is embedded as the pure function
  `infer`.
-/

set_option maxRecDepth 1000000

attribute [local semireducible] Rat.ofScientific Rat.mul Rat.inv Rat.add Rat.sub

/-- Direction of a deviation. The source stores the Python strings
`'low'` / `'high'` or `None`; the spec calls these `below` / `above` / `none`. -/
inductive Direction where
  | low
  | high
  | none
  deriving DecidableEq

/-- One per-joint deviation record, as built in `analyze_posture`. -/
structure Deviation where
  percentage : ℚ
  direction : Direction
  measured : ℚ
  ideal : ℚ
  deriving DecidableEq

/-- Result of `analyze_posture` (spec: FrameAnalysis). -/
structure FrameAnalysis where
  score : ℚ
  feedback : List String
  joint_scores : List (String × ℚ)
  deviations : List (String × Deviation)
  deriving DecidableEq

/-- Per-joint variation statistics built in `analyze_stability`. -/
structure VariationInfo where
  mean : ℚ
  std_dev : ℚ
  variation_pct : ℚ
  deriving DecidableEq

/-- Result of `analyze_stability` (spec: StabilityAnalysis). -/
structure StabilityAnalysis where
  stability_score : ℚ
  variations : List (String × VariationInfo)
  stable_joints : List String
  unstable_joints : List String
  deriving DecidableEq

/-- Result of `generate_session_summary` (spec: SessionSummary). -/
structure SessionSummary where
  overall_score : ℚ
  posture_quality : String
  stability : String
  key_strengths : List String
  areas_to_improve : List String
  recommendations : List String
  deriving DecidableEq

/-- Dict lookup on an association list (first match), mirroring Python
dictionary indexing for the unique-key dicts used by the module. -/
def getA {β : Type} : List (String × β) → String → Option β
  | [], _ => Option.none
  | (k, v) :: rest, j => if j = k then Option.some v else getA rest j

/-- `self.feedback_rules` (pairs are the `'low'` and `'high'` messages). -/
def feedback_rules : List (String × (String × String)) :=
  [("knees", ("Straighten your knees slightly, they\x27re too bent",
              "Bend your knees slightly for better stability")),
   ("hips", ("Adjust your hip position to be more upright",
             "Lower your hips slightly for better alignment")),
   ("left_shoulder", ("Raise your left shoulder more to support the rifle",
                      "Lower your left shoulder slightly for better control")),
   ("right_shoulder", ("Raise your right shoulder slightly",
                       "Lower your right shoulder closer to your body")),
   ("left_elbow", ("Raise your left elbow more to support the rifle",
                   "Lower your left elbow slightly for better stability")),
   ("right_elbow", ("Bend your right elbow more for proper grip",
                    "Extend your right elbow slightly for better control")),
   ("wrists", ("Straighten your wrists more for consistent support",
               "Relax your wrists slightly for better control")),
   ("neck", ("Tilt your head forward slightly to align with sights",
             "Raise your head slightly to improve sight alignment"))]

/-- `self.ideal_angles`; its insertion order is the joint iteration order of
`analyze_posture`. -/
def ideal_angles : List (String × ℚ) :=
  [("knees", 172.5), ("hips", 180.0), ("left_shoulder", 45.0), ("right_shoulder", 15.0),
   ("left_elbow", 75.0), ("right_elbow", 90.0), ("wrists", 180.0), ("neck", 12.5)]

/-- `self.angle_ranges`: (min, max) per joint. -/
def angle_ranges : List (String × (ℚ × ℚ)) :=
  [("knees", (170.0, 175.0)), ("hips", (175.0, 185.0)), ("left_shoulder", (30.0, 60.0)),
   ("right_shoulder", (0.0, 30.0)), ("left_elbow", (60.0, 90.0)), ("right_elbow", (80.0, 100.0)),
   ("wrists", (170.0, 190.0)), ("neck", (10.0, 15.0))]

/-- `self.joint_weights`. -/
def joint_weights : List (String × ℚ) :=
  [("knees", 0.1), ("hips", 0.1), ("left_shoulder", 0.2), ("right_shoulder", 0.1),
   ("left_elbow", 0.2), ("right_elbow", 0.15), ("wrists", 0.05), ("neck", 0.1)]

/-- `skfuzzy.trimf` with breakpoints `[a, b, c]`: 0 outside `[a, c]`, linear
ramps between the breakpoints, and 1 at the peak `b` (also when a degenerate
plateau `a = b` or `b = c` makes one of the ramps empty). -/
def trimf (a b c x : ℚ) : ℚ :=
  if x < a ∨ c < x then 0
  else if x = b then 1
  else if x < b then (x - a) / (b - a)
  else (c - x) / (c - b)

/-- Input membership `deviation['small'] = trimf [0, 0, 25]`. -/
def mu_small (x : ℚ) : ℚ := trimf 0 0 25 x

/-- Input membership `deviation['medium'] = trimf [0, 25, 50]`. -/
def mu_medium (x : ℚ) : ℚ := trimf 0 25 50 x

/-- Input membership `deviation['large'] = trimf [25, 50, 75]`. -/
def mu_large (x : ℚ) : ℚ := trimf 25 50 75 x

/-- Input membership `deviation['very_large'] = trimf [50, 100, 100]`. -/
def mu_very_large (x : ℚ) : ℚ := trimf 50 100 100 x

/-- Output membership `quality['poor'] = trimf [0, 0, 30]`. -/
def mu_poor (y : ℚ) : ℚ := trimf 0 0 30 y

/-- Output membership `quality['fair'] = trimf [10, 40, 70]`. -/
def mu_fair (y : ℚ) : ℚ := trimf 10 40 70 y

/-- Output membership `quality['good'] = trimf [40, 70, 90]`. -/
def mu_good (y : ℚ) : ℚ := trimf 40 70 90 y

/-- Output membership `quality['excellent'] = trimf [70, 100, 100]`. -/
def mu_excellent (y : ℚ) : ℚ := trimf 70 100 100 y

/-- Aggregated output membership at `y` for input `x`: each of the four
Mamdani rules (small→excellent, medium→good, large→fair, very_large→poor)
clips its output set at the antecedent degree (`min`), and the clipped sets
are united pointwise (`max`). -/
def aggregated (x y : ℚ) : ℚ :=
  max (min (mu_small x) (mu_excellent y))
    (max (min (mu_medium x) (mu_good y))
      (max (min (mu_large x) (mu_fair y)) (min (mu_very_large x) (mu_poor y))))

/-- Numerator of the centroid over the integer-discretized universe 0..100. -/
def fuzzNum (x : ℚ) : ℚ := ∑ y ∈ Finset.range 101, (y : ℚ) * aggregated x y

/-- Denominator (total membership mass) of the centroid. -/
def fuzzDen (x : ℚ) : ℚ := ∑ y ∈ Finset.range 101, aggregated x y

/-- The fuzzy quality inference: deviation percentage to quality score by
centroid defuzzification (`posture_sim.compute()` / `output['quality']`). -/
def infer (x : ℚ) : ℚ := fuzzNum x / fuzzDen x

/-- The deviation computation of `analyze_posture` (lines 180-191): direction
and deviation percentage from the measured angle and the joint's range.
Python raises ZeroDivisionError when the branch divisor `min * 0.5`
(resp. `max * 0.5`) is zero; that failure is modelled as `Option.none`. -/
def computeDeviation (min_angle max_angle measured ideal : ℚ) : Option Deviation :=
  if measured < min_angle then
    if min_angle * 0.5 = 0 then Option.none
    else Option.some ⟨min 100 (100 * (min_angle - measured) / (min_angle * 0.5)),
      Direction.low, measured, ideal⟩
  else if max_angle < measured then
    if max_angle * 0.5 = 0 then Option.none
    else Option.some ⟨min 100 (100 * (measured - max_angle) / (max_angle * 0.5)),
      Direction.high, measured, ideal⟩
  else Option.some ⟨0, Direction.none, measured, ideal⟩

/-- The feedback block of the joint loop (`if deviation_pct > 20 and
direction: feedback_items.append(self.feedback_rules[joint_name][direction])`):
the messages the joint contributes, `Option.none` on a failed rules lookup
(Python KeyError, impossible for the fixed registry). -/
def loopFeedback (jname : String) (dev : Deviation) : Option (List String) :=
  if 20 < dev.percentage ∧ dev.direction ≠ Direction.none then
    match getA feedback_rules jname, dev.direction with
    | Option.some fr, Direction.low => Option.some [fr.1]
    | Option.some fr, Direction.high => Option.some [fr.2]
    | _, _ => Option.none
  else Option.some []

/-- The joint loop of `analyze_posture`: iterate `ideal_angles` in insertion
order, skip joints absent from the sample, and accumulate the weighted score,
per-joint scores, deviations and feedback in iteration order. A failed table
lookup (Python KeyError, impossible for the fixed registry) or a failed
deviation computation aborts with `Option.none`. -/
def analyzeLoop (sample : List (String × ℚ)) :
    List (String × ℚ) → Option (ℚ × List (String × ℚ) × List (String × Deviation) × List String)
  | [] => Option.some (0, [], [], [])
  | (jname, ideal) :: rest =>
    match getA sample jname with
    | Option.none => analyzeLoop sample rest
    | Option.some measured =>
      match getA angle_ranges jname with
      | Option.none => Option.none
      | Option.some (mn, mx) =>
        match computeDeviation mn mx measured ideal with
        | Option.none => Option.none
        | Option.some dev =>
          match getA joint_weights jname with
          | Option.none => Option.none
          | Option.some w =>
            match loopFeedback jname dev with
            | Option.none => Option.none
            | Option.some fbHere =>
              match analyzeLoop sample rest with
              | Option.none => Option.none
              | Option.some (s, js, ds, fb) =>
                Option.some (infer dev.percentage * w + s,
                  (jname, infer dev.percentage) :: js,
                  (jname, dev) :: ds,
                  fbHere ++ fb)

/-- `PostureAnalyzer.analyze_posture`: empty sample short-circuit, joint
loop, and the positive message when no feedback was produced. -/
def analyze_posture (sample : List (String × ℚ)) : Option FrameAnalysis :=
  if sample = [] then Option.some ⟨0, ["No pose detected"], [], []⟩
  else
    match analyzeLoop sample ideal_angles with
    | Option.none => Option.none
    | Option.some (s, js, ds, fb) =>
      Option.some ⟨s,
        if fb = [] then ["Great posture! Keep maintaining this stance."] else fb,
        js, ds⟩

/-- Integer square root (largest `k ≤ n` with `k * k ≤ n`) by bounded
search, written so that the kernel can evaluate it. -/
def natSqrt (n : Nat) : Nat :=
  ((List.range (n + 1)).filter (fun k => k * k ≤ n)).foldl (fun a k => if a ≤ k then k else a) 0

/-- Exact rational square root used to instantiate the stability analyzer's
square-root parameter on concrete inputs: on a perfect-square rational it
equals the real square root (which is what `np.std` computes), and it is
nonnegative everywhere, the only property the general theorems rely on. -/
def ratSqrt (q : ℚ) : ℚ := (natSqrt q.num.toNat : ℚ) / (natSqrt q.den : ℚ)

/-- `np.mean` on a list of rationals. -/
def meanQ (l : List ℚ) : ℚ := l.sum / (l.length : ℚ)

/-- Population variance (`np.std` squared). -/
def varianceQ (l : List ℚ) : ℚ :=
  ((l.map (fun v => (v - meanQ l) * (v - meanQ l))).sum) / (l.length : ℚ)

/-- Per-joint statistics of `analyze_stability` (lines 297-311): mean,
standard deviation `sq (variance)`, and the variation percentage
`std/mean*100` (or `std*100` when the mean is zero). -/
def statsOf (sq : ℚ → ℚ) (values : List ℚ) : VariationInfo :=
  let mean_value := meanQ values
  let std_dev := sq (varianceQ values)
  { mean := mean_value, std_dev := std_dev,
    variation_pct := if mean_value ≠ 0 then std_dev / mean_value * 100 else std_dev * 100 }

/-- Insert a joint name if not yet present (first-appearance order; the
source iterates a Python `set`, whose order is unspecified, so a concrete
deterministic order is fixed here; no numeric output depends on it). -/
def insertName (acc : List String) (j : String) : List String :=
  if j ∈ acc then acc else acc ++ [j]

/-- The set of joint names appearing in at least one sample of the sequence. -/
def jointNames (seq : List (List (String × ℚ))) : List String :=
  seq.foldl (fun acc frame => (frame.map Prod.fst).foldl insertName acc) []

/-- The measured values of one joint across the frames where it is present
(the source fills absent joints with NaN and filters the NaNs out, which over
ℚ is exactly "take the frames where the joint is present"). -/
def jointValues (seq : List (List (String × ℚ))) (j : String) : List ℚ :=
  seq.filterMap (fun frame => getA frame j)

/-- One entry of the `variations` dict: present when the joint has at least
one measured value (`if values:`). -/
def stabilityEntry (sq : ℚ → ℚ) (seq : List (List (String × ℚ))) (j : String) :
    Option (String × VariationInfo) :=
  if jointValues seq j = [] then Option.none
  else Option.some (j, statsOf sq (jointValues seq j))

/-- One step of the weighted-variation accumulation (`if joint in
self.joint_weights: weighted_variation += ...; total_weight += weight`). -/
def weightStep (acc : ℚ × ℚ) (p : String × VariationInfo) : ℚ × ℚ :=
  match getA joint_weights p.1 with
  | Option.some w => (acc.1 + p.2.variation_pct * w, acc.2 + w)
  | Option.none => acc

/-- `PostureAnalyzer.analyze_stability`, parameterized by the square-root
function `sq` used for the standard deviation (see `ratSqrt`). -/
def analyze_stability (sq : ℚ → ℚ) (seq : List (List (String × ℚ))) : StabilityAnalysis :=
  if seq = [] then ⟨0, [], [], []⟩
  else
    let entries := (jointNames seq).filterMap (stabilityEntry sq seq)
    let stable_joints := (entries.filter (fun p => decide (p.2.variation_pct < 5))).map Prod.fst
    let unstable_joints := (entries.filter (fun p => !(decide (p.2.variation_pct < 5)))).map Prod.fst
    let acc := entries.foldl weightStep ((0 : ℚ), (0 : ℚ))
    let stability_score :=
      if entries ≠ [] then
        if 0 < acc.2 then max 0 (100 - acc.1 / acc.2 * 5) else 0
      else 0
    ⟨stability_score, entries, stable_joints, unstable_joints⟩

/-- `needle in hay` on Python strings (substring containment). -/
def leadMatch : List Char → List Char → Bool
  | [], _ => true
  | _ :: _, [] => false
  | a :: as, b :: bs => a == b && leadMatch as bs

/-- Helper for `strIn`: does the needle occur at some position of the hay? -/
def subMatch (needle : List Char) : List Char → Bool
  | [] => leadMatch needle []
  | b :: bs => leadMatch needle (b :: bs) || subMatch needle bs

/-- Python's substring test `needle in hay`. -/
def strIn (needle hay : String) : Bool := subMatch needle.data hay.data

/-- Python's `str.lower()` (characterwise; all module strings are ASCII). -/
def pyLower (s : String) : String := String.mk (s.data.map Char.toLower)

/-- Characterwise worker for Python's `str.title()`. -/
def titleChars : Bool → List Char → List Char
  | _, [] => []
  | prevAlpha, c :: cs =>
    (if c.isAlpha && !prevAlpha then c.toUpper else c.toLower) :: titleChars c.isAlpha cs

/-- Python's `str.title()`: uppercase each letter starting an alphabetic run,
lowercase the other letters. -/
def pyTitle (s : String) : String := String.mk (titleChars false s.data)

/-- `joint.replace('_', ' ')`. -/
def replaceUnderscores (s : String) : String :=
  String.mk (s.data.map (fun c => if c = '_' then ' ' else c))

/-- `joint.replace('_', ' ').title()` as used for display names. -/
def titleName (j : String) : String := pyTitle (replaceUnderscores j)

/-- One step of the feedback counter of `generate_session_summary`
(a Python dict counting in first-seen key order). -/
def bumpCount (counter : List (String × Nat)) (fbk : String) : List (String × Nat) :=
  if counter.any (fun p => p.1 == fbk) then
    counter.map (fun p => if p.1 == fbk then (p.1, p.2 + 1) else p)
  else counter ++ [(fbk, 1)]

/-- Tally of every feedback string over all frame analyses. -/
def tallyFeedback (analyses : List FrameAnalysis) : List (String × Nat) :=
  analyses.foldl (fun c a => a.feedback.foldl bumpCount c) []

/-- Stable descending insertion: the new pair goes after all pairs with a
count greater than or equal to its own. -/
def insertDesc (p : String × Nat) : List (String × Nat) → List (String × Nat)
  | [] => [p]
  | q :: rest => if p.2 ≤ q.2 then q :: insertDesc p rest else p :: q :: rest

/-- `sorted(counter.items(), key=count, reverse=True)`: stable sort by
descending count (Python's sort is stable, so ties keep first-seen order). -/
def sortDesc (l : List (String × Nat)) : List (String × Nat) :=
  l.foldl (fun acc p => insertDesc p acc) []

/-- One step of the `good_joint_scores` accumulation (dict of score lists in
first-seen joint order). -/
def bumpScores (acc : List (String × List ℚ)) (j : String) (s : ℚ) : List (String × List ℚ) :=
  if acc.any (fun p => p.1 == j) then
    acc.map (fun p => if p.1 == j then (p.1, p.2 ++ [s]) else p)
  else acc ++ [(j, [s])]

/-- The targeted-exercise mapping of the recommendations loop: the first two
improvement entries are matched by lowercase substring. -/
def exerciseFor (improvement : String) : Option String :=
  if strIn "shoulder" (pyLower improvement) then
    Option.some "Try shoulder strengthening exercises."
  else if strIn "elbow" (pyLower improvement) then
    Option.some "Practice elbow positioning with a training aid."
  else if strIn "knee" (pyLower improvement) || strIn "hip" (pyLower improvement) then
    Option.some "Work on lower body stability through balance exercises."
  else Option.none

/-- `PostureAnalyzer.generate_session_summary`. -/
def generate_session_summary (posture_analyses : List FrameAnalysis)
    (stability_analysis : StabilityAnalysis) : SessionSummary :=
  if posture_analyses = [] then ⟨0, "N/A", "N/A", [], [], []⟩
  else
    let avg_posture_score := meanQ (posture_analyses.map (fun a => a.score))
    let stability_score := stability_analysis.stability_score
    let overall_score := 0.7 * avg_posture_score + 0.3 * stability_score
    let posture_quality :=
      if 85 ≤ overall_score then "Excellent"
      else if 70 ≤ overall_score then "Good"
      else if 50 ≤ overall_score then "Fair"
      else "Needs Improvement"
    let stability_category :=
      if 85 ≤ stability_score then "Very Stable"
      else if 70 ≤ stability_score then "Stable"
      else if 50 ≤ stability_score then "Moderately Stable"
      else "Unstable"
    let good_joint_scores := posture_analyses.foldl
      (fun acc a => a.joint_scores.foldl (fun acc2 p => bumpScores acc2 p.1 p.2) acc) []
    let strengths := good_joint_scores.foldl
      (fun acc p => if 85 ≤ meanQ p.2 then acc ++ ["Strong " ++ titleName p.1 ++ " Position"]
        else acc) []
    let strengths := stability_analysis.stable_joints.foldl
      (fun acc j => if (titleName j) ∈ acc then acc else acc ++ ["Stable " ++ titleName j])
      strengths
    let sorted_feedback := sortDesc (tallyFeedback posture_analyses)
    let improvements := ((sorted_feedback.take 3).filter
      (fun p => !(strIn "Great posture" p.1))).map Prod.fst
    let improvements := improvements ++ stability_analysis.unstable_joints.map
      (fun j => "Improve " ++ titleName j ++ " Stability")
    let recommendations :=
      (if strIn "Needs Improvement" posture_quality || strIn "Fair" posture_quality then
        ["Focus on basic stance fundamentals before proceeding."] else [])
    let recommendations := recommendations ++
      (if stability_category == "Unstable" || stability_category == "Moderately Stable" then
        ["Practice holding your position steady for longer periods."] else [])
    let recommendations := recommendations ++ (improvements.take 2).filterMap exerciseFor
    let recommendations :=
      if recommendations = [] then ["Continue practicing to maintain your excellent form."]
      else recommendations
    ⟨overall_score, posture_quality, stability_category, strengths.take 3,
      improvements.take 3, recommendations⟩

/-- Quality categorization breakpoints of the session summary. -/
def qualityLabel (q : ℚ) : String :=
  if 85 ≤ q then "Excellent" else if 70 ≤ q then "Good"
  else if 50 ≤ q then "Fair" else "Needs Improvement"

/-- Stability categorization breakpoints of the session summary. -/
def stabilityLabel (q : ℚ) : String :=
  if 85 ≤ q then "Very Stable" else if 70 ≤ q then "Stable"
  else if 50 ≤ q then "Moderately Stable" else "Unstable"

/-- Declarative per-joint deviation: the deviation `analyze_posture` computes
for a joint present in the sample (`none` when absent or on failure). -/
def devOf (sample : List (String × ℚ)) (jname : String) (ideal : ℚ) : Option Deviation :=
  match getA sample jname, getA angle_ranges jname with
  | Option.some measured, Option.some (mn, mx) => computeDeviation mn mx measured ideal
  | _, _ => Option.none

/-- Registry feedback text for a joint and a deviation direction. -/
def feedbackFor (jname : String) (d : Direction) : Option String :=
  match getA feedback_rules jname, d with
  | Option.some fr, Direction.low => Option.some fr.1
  | Option.some fr, Direction.high => Option.some fr.2
  | _, _ => Option.none

/-- Declarative frame score over the joint list `l`: the direct weighted sum
`Σ joint_score * weight` of the joints of `l` present in the sample (not
divided by the total weight). -/
def scoreSpecL (sample : List (String × ℚ)) (l : List (String × ℚ)) : ℚ :=
  (l.filterMap (fun p =>
    match devOf sample p.1 p.2, getA joint_weights p.1 with
    | Option.some d, Option.some w => Option.some (infer d.percentage * w)
    | _, _ => Option.none)).sum

/-- Declarative per-joint score map in joint-iteration order. -/
def jointScoresSpecL (sample : List (String × ℚ)) (l : List (String × ℚ)) :
    List (String × ℚ) :=
  l.filterMap (fun p => (devOf sample p.1 p.2).map (fun d => (p.1, infer d.percentage)))

/-- Declarative deviation map in joint-iteration order. -/
def deviationsSpecL (sample : List (String × ℚ)) (l : List (String × ℚ)) :
    List (String × Deviation) :=
  l.filterMap (fun p => (devOf sample p.1 p.2).map (fun d => (p.1, d)))

/-- Declarative feedback list before the positive-message fallback: exactly
the joints whose deviation percentage exceeds 20 with a non-`none` direction,
in joint-iteration order. -/
def feedbackRawSpecL (sample : List (String × ℚ)) (l : List (String × ℚ)) : List String :=
  l.filterMap (fun p =>
    match devOf sample p.1 p.2 with
    | Option.some d =>
      if 20 < d.percentage ∧ d.direction ≠ Direction.none then feedbackFor p.1 d.direction
      else Option.none
    | Option.none => Option.none)

/-- Sum of the registry weights of the joints of `l` (0 for unknown joints). -/
def weightSumL (l : List (String × ℚ)) : ℚ :=
  (l.map (fun p => ((getA joint_weights p.1).getD 0))).sum

/-- The areas-to-improve list as the code builds it: sort the full tally
(positive message included) by descending frequency, take the top 3, only
then drop the positive message, append the unstable-joint entries, cap at 3. -/
def areasAmended (pas : List FrameAnalysis) (st : StabilityAnalysis) : List String :=
  ((((sortDesc (tallyFeedback pas)).take 3).map Prod.fst).filter
      (fun s => !(strIn "Great posture" s))
    ++ st.unstable_joints.map (fun j => "Improve " ++ titleName j ++ " Stability")).take 3

/-- The areas-to-improve list as the claim words it: exclude the positive
message from the tally before sorting and taking the top 3. -/
def areasClaimed (pas : List FrameAnalysis) (st : StabilityAnalysis) : List String :=
  ((((sortDesc ((tallyFeedback pas).filter (fun p => !(strIn "Great posture" p.1)))).take 3).map
      Prod.fst)
    ++ st.unstable_joints.map (fun j => "Improve " ++ titleName j ++ " Stability")).take 3

/-- The recommendations list as the code builds it (no duplicate
suppression): fundamentals rule, steady-hold rule, one targeted exercise
message per matching entry among the first two areas to improve, and the
maintenance message only when nothing else fired. -/
def recsAmended (pas : List FrameAnalysis) (st : StabilityAnalysis) : List String :=
  let s := generate_session_summary pas st
  let base :=
    (if strIn "Needs Improvement" s.posture_quality || strIn "Fair" s.posture_quality then
      ["Focus on basic stance fundamentals before proceeding."] else [])
    ++ (if s.stability == "Unstable" || s.stability == "Moderately Stable" then
      ["Practice holding your position steady for longer periods."] else [])
    ++ (s.areas_to_improve.take 2).filterMap exerciseFor
  if base = [] then ["Continue practicing to maintain your excellent form."] else base

/-- The single-bad-joint scenario sample of the spec: every joint at its
ideal angle except `left_shoulder`, measured at 90 against its (30, 60)
range. -/
def badShoulderSample : List (String × ℚ) :=
  [("knees", 172.5), ("hips", 180.0), ("left_shoulder", 90.0), ("right_shoulder", 15.0),
   ("left_elbow", 75.0), ("right_elbow", 90.0), ("wrists", 180.0), ("neck", 12.5)]

/-- The deviation computed for a below-range knees measurement of 100. -/
def devW : Deviation := ⟨1400/17, Direction.low, 100, 172.5⟩

/-- A one-joint sample used to exercise the frame analyzer. -/
def sampleKnees : List (String × ℚ) := [("knees", 172.5)]

/-- The frame analysis of `sampleKnees`: a single within-range joint. -/
def faKnees : FrameAnalysis :=
  ⟨271/30, ["Great posture! Keep maintaining this stance."], [("knees", 271/3)],
   [("knees", ⟨0, Direction.none, 172.5, 172.5⟩)]⟩

/-- A one-joint sample with `neck` far above its range. -/
def sampleNeck : List (String × ℚ) := [("neck", 50)]

/-- The frame analysis of `sampleNeck`. -/
def faNeck : FrameAnalysis :=
  ⟨29/30, ["Raise your head slightly to improve sight alignment"], [("neck", 29/3)],
   [("neck", ⟨100, Direction.high, 50, 12.5⟩)]⟩

/-- Six frames whose feedback tally is: positive message 3 times, then three
distinct corrective messages once each. -/
def pasC4 : List FrameAnalysis :=
  [⟨0, ["Great posture! Keep maintaining this stance."], [], []⟩,
   ⟨0, ["Great posture! Keep maintaining this stance."], [], []⟩,
   ⟨0, ["Great posture! Keep maintaining this stance."], [], []⟩,
   ⟨0, ["Adjust your hip position to be more upright"], [], []⟩,
   ⟨0, ["Raise your left shoulder more to support the rifle"], [], []⟩,
   ⟨0, ["Straighten your wrists more for consistent support"], [], []⟩]

/-- An all-zero stability analysis. -/
def stZero : StabilityAnalysis := ⟨0, [], [], []⟩

/-- One frame whose feedback holds two distinct shoulder-related messages. -/
def pasC5 : List FrameAnalysis :=
  [⟨80, ["Raise your left shoulder more to support the rifle",
         "Lower your right shoulder closer to your body"], [], []⟩]

/-- A very stable stability analysis (score 90). -/
def stC5 : StabilityAnalysis := ⟨90, [], [], []⟩

/-- Five frame analyses with score 80 (the session-summary blend scenario). -/
def pasBlend : List FrameAnalysis := List.replicate 5 ⟨80, [], [], []⟩

/-- A stability analysis with score 60 (the session-summary blend scenario). -/
def stBlend : StabilityAnalysis := ⟨60, [], [], []⟩

/-- A two-frame sequence of negative `knees` angles (mean -15, population
standard deviation exactly 5). -/
def seqNeg : List (List (String × ℚ)) := [[("knees", -10)], [("knees", -20)]]

/-- The triangular membership functions are nonnegative. -/
theorem trimf_nonneg (a b c x : ℚ) : 0 ≤ trimf a b c x := by
  unfold trimf
  split_ifs with h1 h2 h3
  · exact le_refl 0
  · exact zero_le_one
  · push_neg at h1
    exact div_nonneg (by linarith [h1.1]) (by linarith [h1.1])
  · push_neg at h1
    have hbx : b < x := lt_of_le_of_ne (le_of_not_lt h3) (fun e => h2 e.symm)
    exact div_nonneg (by linarith [h1.2]) (by linarith [h1.2])

theorem mu_small_nonneg (x : ℚ) : 0 ≤ mu_small x := trimf_nonneg 0 0 25 x

theorem mu_medium_nonneg (x : ℚ) : 0 ≤ mu_medium x := trimf_nonneg 0 25 50 x

theorem mu_large_nonneg (x : ℚ) : 0 ≤ mu_large x := trimf_nonneg 25 50 75 x

theorem mu_very_large_nonneg (x : ℚ) : 0 ≤ mu_very_large x := trimf_nonneg 50 100 100 x

theorem mu_poor_nonneg (y : ℚ) : 0 ≤ mu_poor y := trimf_nonneg 0 0 30 y

theorem mu_fair_nonneg (y : ℚ) : 0 ≤ mu_fair y := trimf_nonneg 10 40 70 y

theorem mu_good_nonneg (y : ℚ) : 0 ≤ mu_good y := trimf_nonneg 40 70 90 y

theorem mu_excellent_nonneg (y : ℚ) : 0 ≤ mu_excellent y := trimf_nonneg 70 100 100 y

/-- The aggregated output membership is nonnegative. -/
theorem aggregated_nonneg (x y : ℚ) : 0 ≤ aggregated x y :=
  le_max_of_le_left (le_min (mu_small_nonneg x) (mu_excellent_nonneg y))

theorem aggregated_ge_small (x y : ℚ) :
    min (mu_small x) (mu_excellent y) ≤ aggregated x y := le_max_left _ _

theorem aggregated_ge_medium (x y : ℚ) :
    min (mu_medium x) (mu_good y) ≤ aggregated x y :=
  le_trans (le_max_left _ _) (le_max_right _ _)

theorem aggregated_ge_large (x y : ℚ) :
    min (mu_large x) (mu_fair y) ≤ aggregated x y :=
  le_trans (le_trans (le_max_left _ _) (le_max_right _ _)) (le_max_right _ _)

theorem aggregated_ge_very_large (x y : ℚ) :
    min (mu_very_large x) (mu_poor y) ≤ aggregated x y :=
  le_trans (le_trans (le_max_right _ _) (le_max_right _ _)) (le_max_right _ _)

/-- On `[0, 25)` the `small` input set has positive membership. -/
theorem mu_small_pos {x : ℚ} (h0 : 0 ≤ x) (h1 : x < 25) : 0 < mu_small x := by
  unfold mu_small trimf
  split_ifs with h2 h3 h4
  · rcases h2 with h | h <;> linarith
  · exact zero_lt_one
  · linarith
  · exact div_pos (by linarith) (by norm_num)

/-- On `[25, 50)` the `medium` input set has positive membership. -/
theorem mu_medium_pos {x : ℚ} (h0 : 25 ≤ x) (h1 : x < 50) : 0 < mu_medium x := by
  unfold mu_medium trimf
  split_ifs with h2 h3 h4
  · rcases h2 with h | h <;> linarith
  · exact zero_lt_one
  · linarith
  · exact div_pos (by linarith) (by norm_num)

/-- On `[50, 75)` the `large` input set has positive membership. -/
theorem mu_large_pos {x : ℚ} (h0 : 50 ≤ x) (h1 : x < 75) : 0 < mu_large x := by
  unfold mu_large trimf
  split_ifs with h2 h3 h4
  · rcases h2 with h | h <;> linarith
  · exact zero_lt_one
  · linarith
  · exact div_pos (by linarith) (by norm_num)

/-- On `[75, 100]` the `very_large` input set has positive membership. -/
theorem mu_very_large_pos {x : ℚ} (h0 : 75 ≤ x) (h1 : x ≤ 100) : 0 < mu_very_large x := by
  unfold mu_very_large trimf
  split_ifs with h2 h3 h4
  · rcases h2 with h | h <;> linarith
  · exact zero_lt_one
  · exact div_pos (by linarith) (by norm_num)
  · have : 100 < x := lt_of_le_of_ne (le_of_not_lt h4) (Ne.symm h3)
    push_neg at h2
    linarith [h2.2]

/-- For inputs in `[0, 100]` the aggregated membership has positive total
mass, so the centroid is well defined. -/
theorem fuzzDen_pos {x : ℚ} (h0 : 0 ≤ x) (h1 : x ≤ 100) : 0 < fuzzDen x := by
  unfold fuzzDen
  by_cases hA : x < 25
  · refine Finset.sum_pos' (fun i _ => aggregated_nonneg x i) ⟨100, by simp, ?_⟩
    calc (0 : ℚ) < min (mu_small x) (mu_excellent 100) :=
          lt_min (mu_small_pos h0 hA) (by norm_num [mu_excellent, trimf])
      _ ≤ aggregated x 100 := aggregated_ge_small x 100
  · by_cases hB : x < 50
    · refine Finset.sum_pos' (fun i _ => aggregated_nonneg x i) ⟨70, by simp, ?_⟩
      calc (0 : ℚ) < min (mu_medium x) (mu_good 70) :=
            lt_min (mu_medium_pos (le_of_not_lt hA) hB) (by norm_num [mu_good, trimf])
        _ ≤ aggregated x 70 := aggregated_ge_medium x 70
    · by_cases hC : x < 75
      · refine Finset.sum_pos' (fun i _ => aggregated_nonneg x i) ⟨40, by simp, ?_⟩
        calc (0 : ℚ) < min (mu_large x) (mu_fair 40) :=
              lt_min (mu_large_pos (le_of_not_lt hB) hC) (by norm_num [mu_fair, trimf])
          _ ≤ aggregated x 40 := aggregated_ge_large x 40
      · refine Finset.sum_pos' (fun i _ => aggregated_nonneg x i) ⟨0, by simp, ?_⟩
        calc (0 : ℚ) < min (mu_very_large x) (mu_poor 0) :=
              lt_min (mu_very_large_pos (le_of_not_lt hC) h1) (by norm_num [mu_poor, trimf])
          _ ≤ aggregated x 0 := aggregated_ge_very_large x 0

theorem fuzzDen_nonneg (x : ℚ) : 0 ≤ fuzzDen x :=
  Finset.sum_nonneg (fun i _ => aggregated_nonneg x i)

theorem fuzzNum_nonneg (x : ℚ) : 0 ≤ fuzzNum x :=
  Finset.sum_nonneg (fun i _ => mul_nonneg (Nat.cast_nonneg i) (aggregated_nonneg x i))

/-- The centroid numerator is at most 100 times the mass. -/
theorem fuzzNum_le (x : ℚ) : fuzzNum x ≤ 100 * fuzzDen x := by
  unfold fuzzNum fuzzDen
  rw [Finset.mul_sum]
  refine Finset.sum_le_sum (fun i hi => ?_)
  have hy : (i : ℚ) ≤ 100 := by
    have := Nat.le_of_lt_succ (Finset.mem_range.mp hi)
    exact_mod_cast this
  exact mul_le_mul_of_nonneg_right hy (aggregated_nonneg x i)

/-- The fuzzy score is nonnegative (for every rational input). -/
theorem infer_nonneg (x : ℚ) : 0 ≤ infer x :=
  div_nonneg (fuzzNum_nonneg x) (fuzzDen_nonneg x)

/-- The fuzzy score is at most 100 for inputs in `[0, 100]`. -/
theorem infer_le_100 {x : ℚ} (h0 : 0 ≤ x) (h1 : x ≤ 100) : infer x ≤ 100 := by
  unfold infer
  rw [div_le_iff₀ (fuzzDen_pos h0 h1)]
  exact fuzzNum_le x

/-- A successful `getA` lookup yields an element of the list. -/
theorem getA_mem {β : Type} : ∀ {l : List (String × β)} {j : String} {v : β},
    getA l j = Option.some v → (j, v) ∈ l := by
  intro l
  induction l with
  | nil => intro j v h; simp [getA] at h
  | cons p rest ih =>
    intro j v h
    obtain ⟨k, b⟩ := p
    simp only [getA] at h
    split_ifs at h with hk
    · cases h
      subst hk
      exact List.mem_cons_self _ _
    · exact List.mem_cons_of_mem _ (ih h)

/-- A key absent from every pair of the sample looks up to `none`. -/
theorem getA_eq_none {β : Type} : ∀ {l : List (String × β)} {j : String},
    (∀ p ∈ l, p.1 ≠ j) → getA l j = Option.none := by
  intro l
  induction l with
  | nil => intro j _; rfl
  | cons p rest ih =>
    intro j h
    obtain ⟨k, b⟩ := p
    simp only [getA]
    rw [if_neg, ih]
    · exact fun q hq => h q (List.mem_cons_of_mem _ hq)
    · exact fun e => h (k, b) (List.mem_cons_self _ _) e.symm

/-- All configured joint weights are nonnegative. -/
theorem weight_nonneg {j : String} {w : ℚ} (h : getA joint_weights j = Option.some w) :
    0 ≤ w := by
  have hm := getA_mem h
  simp only [joint_weights, List.mem_cons, List.not_mem_nil, or_false, Prod.mk.injEq] at hm
  rcases hm with h | h | h | h | h | h | h | h <;> rw [h.2] <;> norm_num

/-- All configured angle-range endpoints are nonnegative. -/
theorem range_nonneg {j : String} {mn mx : ℚ}
    (h : getA angle_ranges j = Option.some (mn, mx)) : 0 ≤ mn ∧ 0 ≤ mx := by
  have hm := getA_mem h
  simp only [angle_ranges, List.mem_cons, List.not_mem_nil, or_false, Prod.mk.injEq] at hm
  rcases hm with h | h | h | h | h | h | h | h <;>
    (obtain ⟨-, rfl, rfl⟩ := h; exact ⟨by norm_num, by norm_num⟩)

/-- A computed deviation's percentage lies in `[0, 100]` whenever the range
endpoints are nonnegative. -/
theorem computeDeviation_pct {mn mx m i : ℚ} {d : Deviation}
    (h : computeDeviation mn mx m i = Option.some d) (hmn : 0 ≤ mn) (hmx : 0 ≤ mx) :
    0 ≤ d.percentage ∧ d.percentage ≤ 100 := by
  unfold computeDeviation at h
  split_ifs at h with h1 h2 h3 h4
  · injection h with h
    subst h
    have hne : mn ≠ 0 := fun e => h2 (by rw [e]; ring)
    have hmn' : 0 < mn := lt_of_le_of_ne hmn (Ne.symm hne)
    have hx : 0 < 100 * (mn - m) / (mn * 0.5) :=
      div_pos (by linarith) (mul_pos hmn' (by norm_num))
    exact ⟨le_min (by norm_num) (le_of_lt hx), min_le_left _ _⟩
  · injection h with h
    subst h
    have hne : mx ≠ 0 := fun e => h4 (by rw [e]; ring)
    have hmx' : 0 < mx := lt_of_le_of_ne hmx (Ne.symm hne)
    have hx : 0 < 100 * (m - mx) / (mx * 0.5) :=
      div_pos (by linarith) (mul_pos hmx' (by norm_num))
    exact ⟨le_min (by norm_num) (le_of_lt hx), min_le_left _ _⟩
  · injection h with h
    subst h
    exact ⟨le_refl 0, by norm_num⟩

/-- The joint loop computes exactly the declarative per-joint maps: the
weighted score sum, the score map, the deviation map and the raw feedback
list, all in joint-iteration order. -/
theorem analyzeLoop_spec (sample : List (String × ℚ)) :
    ∀ (l : List (String × ℚ)) (r : ℚ × List (String × ℚ) × List (String × Deviation) × List String),
      analyzeLoop sample l = Option.some r →
      r.1 = scoreSpecL sample l ∧ r.2.1 = jointScoresSpecL sample l ∧
      r.2.2.1 = deviationsSpecL sample l ∧ r.2.2.2 = feedbackRawSpecL sample l := by
  intro l
  induction l with
  | nil =>
    intro r h
    simp only [analyzeLoop, Option.some.injEq] at h
    subst h
    exact ⟨rfl, rfl, rfl, rfl⟩
  | cons p rest ih =>
    obtain ⟨jname, ideal⟩ := p
    intro r h
    cases hs : getA sample jname with
    | none =>
      simp only [analyzeLoop, hs] at h
      obtain ⟨h1, h2, h3, h4⟩ := ih r h
      refine ⟨?_, ?_, ?_, ?_⟩ <;>
        simp [scoreSpecL, jointScoresSpecL, deviationsSpecL, feedbackRawSpecL,
          List.filterMap_cons, devOf, hs, h1, h2, h3, h4]
    | some measured =>
      cases hr : getA angle_ranges jname with
      | none =>
              simp only [analyzeLoop, hs, hr] at h
              exact Option.noConfusion h
      | some rng =>
        obtain ⟨mn, mx⟩ := rng
        cases hd : computeDeviation mn mx measured ideal with
        | none =>
              simp only [analyzeLoop, hs, hr, hd] at h
              exact Option.noConfusion h
        | some dev =>
          cases hw : getA joint_weights jname with
          | none =>
              simp only [analyzeLoop, hs, hr, hd, hw] at h
              exact Option.noConfusion h
          | some w =>
            cases hfb : loopFeedback jname dev with
            | none =>
              simp only [analyzeLoop, hs, hr, hd, hw, hfb] at h
              exact Option.noConfusion h
            | some fbHere =>
              cases hrec : analyzeLoop sample rest with
              | none =>
              simp only [analyzeLoop, hs, hr, hd, hw, hfb, hrec] at h
              exact Option.noConfusion h
              | some r' =>
                obtain ⟨s, js, ds, fb⟩ := r'
                simp only [analyzeLoop, hs, hr, hd, hw, hfb, hrec, Option.some.injEq] at h
                subst h
                obtain ⟨h1, h2, h3, h4⟩ := ih _ hrec
                have hdev : devOf sample jname ideal = Option.some dev := by
                  simp [devOf, hs, hr, hd]
                refine ⟨?_, ?_, ?_, ?_⟩
                · simp [scoreSpecL, List.filterMap_cons, hdev, hw]
                  exact h1
                · simp [jointScoresSpecL, List.filterMap_cons, hdev]
                  exact h2
                · simp [deviationsSpecL, List.filterMap_cons, hdev]
                  exact h3
                · by_cases hc : 20 < dev.percentage ∧ dev.direction ≠ Direction.none
                  · unfold loopFeedback at hfb
                    rw [if_pos hc] at hfb
                    cases hfr : getA feedback_rules jname with
                    | none => rw [hfr] at hfb; cases hdir : dev.direction <;>
                        rw [hdir] at hfb <;> exact Option.noConfusion hfb
                    | some fr =>
                      rw [hfr] at hfb
                      cases hdir : dev.direction with
                      | low =>
                        rw [hdir] at hfb
                        injection hfb with hfb
                        subst hfb
                        simp [feedbackRawSpecL, List.filterMap_cons, hdev, hc.1,
                          feedbackFor, hfr, hdir]
                        exact h4
                      | high =>
                        rw [hdir] at hfb
                        injection hfb with hfb
                        subst hfb
                        simp [feedbackRawSpecL, List.filterMap_cons, hdev, hc.1,
                          feedbackFor, hfr, hdir]
                        exact h4
                      | none => exact absurd hdir hc.2
                  · unfold loopFeedback at hfb
                    rw [if_neg hc] at hfb
                    injection hfb with hfb
                    subst hfb
                    simp [feedbackRawSpecL, List.filterMap_cons, hdev, if_neg hc]
                    exact h4

/-- Along the joint loop the accumulated score is nonnegative and at most
100 times the total configured weight of the iterated joints. -/
theorem analyzeLoop_bound (sample : List (String × ℚ)) :
    ∀ (l : List (String × ℚ)) (r : ℚ × List (String × ℚ) × List (String × Deviation) × List String),
      analyzeLoop sample l = Option.some r →
      0 ≤ r.1 ∧ r.1 ≤ 100 * weightSumL l := by
  intro l
  induction l with
  | nil =>
    intro r h
    simp only [analyzeLoop, Option.some.injEq] at h
    subst h
    simp [weightSumL]
  | cons p rest ih =>
    obtain ⟨jname, ideal⟩ := p
    intro r h
    have hwd : 0 ≤ (getA joint_weights jname).getD 0 := by
      cases hw : getA joint_weights jname with
      | none => simp
      | some w => simpa using weight_nonneg hw
    have hwsum : weightSumL ((jname, ideal) :: rest)
        = (getA joint_weights jname).getD 0 + weightSumL rest := by
      simp [weightSumL]
    cases hs : getA sample jname with
    | none =>
      simp only [analyzeLoop, hs] at h
      obtain ⟨h1, h2⟩ := ih r h
      exact ⟨h1, by rw [hwsum]; linarith⟩
    | some measured =>
      cases hr : getA angle_ranges jname with
      | none =>
              simp only [analyzeLoop, hs, hr] at h
              exact Option.noConfusion h
      | some rng =>
        obtain ⟨mn, mx⟩ := rng
        cases hd : computeDeviation mn mx measured ideal with
        | none =>
              simp only [analyzeLoop, hs, hr, hd] at h
              exact Option.noConfusion h
        | some dev =>
          cases hw : getA joint_weights jname with
          | none =>
              simp only [analyzeLoop, hs, hr, hd, hw] at h
              exact Option.noConfusion h
          | some w =>
            cases hfb : loopFeedback jname dev with
            | none =>
              simp only [analyzeLoop, hs, hr, hd, hw, hfb] at h
              exact Option.noConfusion h
            | some fbHere =>
              cases hrec : analyzeLoop sample rest with
              | none =>
              simp only [analyzeLoop, hs, hr, hd, hw, hfb, hrec] at h
              exact Option.noConfusion h
              | some r' =>
                obtain ⟨s, js, ds, fb⟩ := r'
                simp only [analyzeLoop, hs, hr, hd, hw, hfb, hrec, Option.some.injEq] at h
                subst h
                obtain ⟨h1, h2⟩ := ih _ hrec
                obtain ⟨hmn, hmx⟩ := range_nonneg hr
                obtain ⟨hp0, hp100⟩ := computeDeviation_pct hd hmn hmx
                have hw0 : 0 ≤ w := weight_nonneg hw
                have hinf0 : 0 ≤ infer dev.percentage := infer_nonneg _
                have hinf100 : infer dev.percentage ≤ 100 := infer_le_100 hp0 hp100
                have hwg : (getA joint_weights jname).getD 0 = w := by rw [hw]; rfl
                constructor
                · have : 0 ≤ infer dev.percentage * w := mul_nonneg hinf0 hw0
                  simpa using add_nonneg this h1
                · rw [hwsum, hwg]
                  have hmul : infer dev.percentage * w ≤ 100 * w :=
                    mul_le_mul_of_nonneg_right hinf100 hw0
                  have : (infer dev.percentage * w + s : ℚ) ≤ 100 * w + 100 * weightSumL rest := by
                    exact add_le_add hmul h2
                  calc (infer dev.percentage * w + s : ℚ)
                      ≤ 100 * w + 100 * weightSumL rest := this
                    _ = 100 * (w + weightSumL rest) := by ring

/-- `ratSqrt` is nonnegative everywhere, like the real square root. -/
theorem ratSqrt_nonneg (q : ℚ) : 0 ≤ ratSqrt q :=
  div_nonneg (Nat.cast_nonneg _) (Nat.cast_nonneg _)

/-- The mean of a list of nonnegative rationals is nonnegative. -/
theorem meanQ_nonneg {l : List ℚ} (h : ∀ v ∈ l, 0 ≤ v) : 0 ≤ meanQ l :=
  div_nonneg (List.sum_nonneg h) (Nat.cast_nonneg _)

/-- The mean of a nonempty list of rationals bounded by 100 is at most 100. -/
theorem meanQ_le_100 {l : List ℚ} (hne : l ≠ []) (h : ∀ v ∈ l, v ≤ 100) :
    meanQ l ≤ 100 := by
  have hlen : 0 < (l.length : ℚ) := by
    have : 0 < l.length := List.length_pos.mpr hne
    exact_mod_cast this
  rw [meanQ, div_le_iff₀ hlen]
  have := List.sum_le_card_nsmul l 100 h
  calc l.sum ≤ l.length • (100 : ℚ) := this
    _ = 100 * (l.length : ℚ) := by rw [nsmul_eq_mul]; ring

/-- The variation percentage is nonnegative when all values are nonnegative
and the square root is nonnegative. -/
theorem stats_variation_nonneg {sq : ℚ → ℚ} (hsq : ∀ q, 0 ≤ sq q) {values : List ℚ}
    (hv : ∀ v ∈ values, 0 ≤ v) : 0 ≤ (statsOf sq values).variation_pct := by
  have hm : 0 ≤ meanQ values := meanQ_nonneg hv
  have hs : 0 ≤ sq (varianceQ values) := hsq _
  simp only [statsOf]
  split_ifs with h
  · have hm' : 0 < meanQ values := lt_of_le_of_ne hm (Ne.symm h)
    exact mul_nonneg (div_nonneg hs hm) (by norm_num)
  · exact mul_nonneg hs (by norm_num)

/-- Every value collected for a joint comes from some frame of the sequence. -/
theorem jointValues_nonneg {seq : List (List (String × ℚ))}
    (hvals : ∀ frame ∈ seq, ∀ p ∈ frame, 0 ≤ p.2) (j : String) :
    ∀ v ∈ jointValues seq j, 0 ≤ v := by
  intro v hv
  rw [jointValues, List.mem_filterMap] at hv
  obtain ⟨frame, hf, hg⟩ := hv
  exact hvals frame hf (j, v) (getA_mem hg)

/-- Every `variations` entry of the stability analysis has nonnegative
variation percentage when all sampled values are nonnegative. -/
theorem stabilityEntry_nonneg {sq : ℚ → ℚ} (hsq : ∀ q, 0 ≤ sq q)
    {seq : List (List (String × ℚ))} (hvals : ∀ frame ∈ seq, ∀ p ∈ frame, 0 ≤ p.2)
    {j : String} {e : String × VariationInfo} (he : stabilityEntry sq seq j = Option.some e) :
    0 ≤ e.2.variation_pct := by
  unfold stabilityEntry at he
  split_ifs at he with hempty
  · injection he with he
    subst he
    exact stats_variation_nonneg hsq (jointValues_nonneg hvals j)

/-- The weighted-variation fold keeps both accumulators nonnegative when all
variation percentages are nonnegative. -/
theorem weightStep_fold :
    ∀ (entries : List (String × VariationInfo)),
      (∀ e ∈ entries, 0 ≤ e.2.variation_pct) →
      ∀ init : ℚ × ℚ, 0 ≤ init.1 → 0 ≤ init.2 →
        0 ≤ (entries.foldl weightStep init).1 ∧ 0 ≤ (entries.foldl weightStep init).2 := by
  intro entries
  induction entries with
  | nil => intro _ init h1 h2; exact ⟨h1, h2⟩
  | cons e rest ih =>
    intro h init h1 h2
    have he := h e (List.mem_cons_self _ _)
    have hrest : ∀ x ∈ rest, 0 ≤ x.2.variation_pct :=
      fun x hx => h x (List.mem_cons_of_mem _ hx)
    rw [List.foldl_cons]
    refine ih hrest (weightStep init e) ?_ ?_
    · unfold weightStep
      cases hw : getA joint_weights e.1 with
      | none => exact h1
      | some w =>
        have := weight_nonneg hw
        dsimp only
        exact add_nonneg h1 (mul_nonneg he this)
    · unfold weightStep
      cases hw : getA joint_weights e.1 with
      | none => exact h2
      | some w =>
        have := weight_nonneg hw
        dsimp only
        exact add_nonneg h2 this

/-- The stability score is nonnegative for every input sequence and every
square-root function. -/
theorem stability_score_nonneg (sq : ℚ → ℚ) (seq : List (List (String × ℚ))) :
    0 ≤ (analyze_stability sq seq).stability_score := by
  unfold analyze_stability
  split_ifs with h1
  · exact le_refl 0
  · dsimp only
    split_ifs with h2 h3
    · exact le_max_left 0 _
    · exact le_refl 0
    · exact le_refl 0

/-- For nonnegative samples the stability score is at most 100 and every
variation percentage is nonnegative. -/
theorem stability_score_le_100 {sq : ℚ → ℚ} (hsq : ∀ q, 0 ≤ sq q)
    {seq : List (List (String × ℚ))} (hvals : ∀ frame ∈ seq, ∀ p ∈ frame, 0 ≤ p.2) :
    (analyze_stability sq seq).stability_score ≤ 100 ∧
    ∀ e ∈ (analyze_stability sq seq).variations, 0 ≤ e.2.variation_pct := by
  have hent : ∀ e ∈ (jointNames seq).filterMap (stabilityEntry sq seq),
      0 ≤ e.2.variation_pct := by
    intro e he
    rw [List.mem_filterMap] at he
    obtain ⟨j, _, hsome⟩ := he
    exact stabilityEntry_nonneg hsq hvals hsome
  unfold analyze_stability
  split_ifs with h1
  · exact ⟨by norm_num, by intro e he; simp at he⟩
  · dsimp only
    constructor
    · split_ifs with h2 h3
      · have hacc := weightStep_fold _ hent (0, 0) (le_refl 0) (le_refl 0)
        have hdiv := div_nonneg hacc.1 hacc.2
        exact max_le (by norm_num) (by linarith [hdiv])
      · norm_num
      · norm_num
    · exact hent

/-- Case description of a successfully computed deviation (`max 0` is the
lower clamp, a no-op because the computed value is never negative). -/
theorem computeDeviation_cases {mn mx m i : ℚ} {d : Deviation} (hmn : 0 ≤ mn) (hmx : 0 ≤ mx)
    (hmnmx : mn ≤ mx) (h : computeDeviation mn mx m i = Option.some d) :
    (m < mn → d.direction = Direction.low
      ∧ d.percentage = max 0 (min 100 (100 * (mn - m) / (mn * 0.5))))
    ∧ (mx < m → d.direction = Direction.high
      ∧ d.percentage = max 0 (min 100 (100 * (m - mx) / (mx * 0.5))))
    ∧ (mn ≤ m → m ≤ mx → d.direction = Direction.none ∧ d.percentage = 0) := by
  unfold computeDeviation at h
  split_ifs at h with h1 h2 h3 h4
  · injection h with h
    subst h
    have hne : mn ≠ 0 := fun e => h2 (by rw [e]; ring)
    have hmn' : 0 < mn := lt_of_le_of_ne hmn (Ne.symm hne)
    have hx : 0 ≤ 100 * (mn - m) / (mn * 0.5) :=
      le_of_lt (div_pos (by linarith) (mul_pos hmn' (by norm_num)))
    refine ⟨fun _ => ⟨rfl, ?_⟩, fun hc => absurd hc (by intro hc; linarith),
      fun hc _ => absurd h1 (not_lt.mpr hc)⟩
    rw [max_eq_right (le_min (by norm_num) hx)]
  · injection h with h
    subst h
    have hne : mx ≠ 0 := fun e => h4 (by rw [e]; ring)
    have hmx' : 0 < mx := lt_of_le_of_ne hmx (Ne.symm hne)
    have hx : 0 ≤ 100 * (m - mx) / (mx * 0.5) :=
      le_of_lt (div_pos (by linarith) (mul_pos hmx' (by norm_num)))
    refine ⟨fun hc => absurd hc (by intro hc; linarith),
      fun _ => ⟨rfl, ?_⟩, fun _ hc => absurd h3 (not_lt.mpr hc)⟩
    rw [max_eq_right (le_min (by norm_num) hx)]
  · injection h with h
    subst h
    exact ⟨fun hc => absurd hc h1, fun hc => absurd hc h3, fun _ _ => ⟨rfl, rfl⟩⟩

/-- Filtering pairs on a key predicate commutes with projecting the keys. -/
theorem map_fst_filter (p : String → Bool) :
    ∀ l : List (String × Nat),
      (l.filter (fun q => p q.1)).map Prod.fst = (l.map Prod.fst).filter p := by
  intro l
  induction l with
  | nil => rfl
  | cons q rest ih =>
    by_cases hq : p q.1
    · simp [List.filter_cons, hq, ih]
    · simp [List.filter_cons, hq, ih]

/-- A joint loop over joints all absent from the sample returns the zero
accumulator. -/
theorem analyzeLoop_all_absent (sample : List (String × ℚ)) :
    ∀ l : List (String × ℚ), (∀ p ∈ l, getA sample p.1 = Option.none) →
      analyzeLoop sample l = Option.some (0, [], [], []) := by
  intro l
  induction l with
  | nil => intro _; rfl
  | cons p rest ih =>
    intro h
    obtain ⟨jname, ideal⟩ := p
    have hs := h (jname, ideal) (List.mem_cons_self _ _)
    simp only [analyzeLoop, hs]
    exact ih (fun q hq => h q (List.mem_cons_of_mem _ hq))

/-- Claim C2 (counterexample): the configured minimum of `right_shoulder` is
0, not positive; for a measured angle below it the below-minimum divisor
`min * 0.5` is zero, and the deviation computation fails with a division
error instead of returning a Deviation. -/
theorem claim2_counterexample :
    getA angle_ranges "right_shoulder" = Option.some (0, 30)
    ∧ (0 : ℚ) * 0.5 = 0
    ∧ computeDeviation 0 30 (-1) 15 = Option.none := by
  decide

/-- Claim C2 (amended): for every configured joint other than
`right_shoulder` the Deviation Calculator succeeds on every real measured
angle (their range minima are positive, so the below-minimum divisor is
nonzero); for `right_shoulder`, whose minimum is 0, it succeeds exactly on
the angles that do not fall below the minimum. -/
theorem claim2_amended :
    ∀ j mn mx, (j, (mn, mx)) ∈ angle_ranges → ∀ m ideal : ℚ,
      (j ≠ "right_shoulder" ∨ 0 ≤ m) → (computeDeviation mn mx m ideal).isSome := by
  intro j mn mx hp m ideal hcond
  simp only [angle_ranges, List.mem_cons, List.not_mem_nil, or_false, Prod.mk.injEq] at hp
  rcases hp with h | h | h | h | h | h | h | h <;> obtain ⟨rfl, rfl, rfl⟩ := h <;>
    (unfold computeDeviation
     split_ifs with h1 h2 h3 h4 <;>
       first
         | rfl
         | (norm_num at h2; done)
         | (norm_num at h4; done)
         | (exfalso
            have hm : (0 : ℚ) ≤ m := hcond.resolve_left (fun hne => hne rfl)
            norm_num at h1
            linarith))

/-- Claim C2 witness: the knees range succeeds on an out-of-range angle. -/
theorem claim2_amended_witness : (computeDeviation 170 175 100 172.5).isSome :=
  claim2_amended "knees" 170 175 (by decide) 100 172.5 (Or.inl (by decide))

/-- Claim C8: on empty input both analyzers return the fixed zero results:
`analyze({})` yields score 0 with the "No pose detected" message and empty
maps, and stability analysis of an empty sequence yields the all-zero/empty
structure (for every square-root function). -/
theorem claim8_empty :
    analyze_posture [] = Option.some ⟨0, ["No pose detected"], [], []⟩
    ∧ (∀ sq : ℚ → ℚ, analyze_stability sq [] = ⟨0, [], [], []⟩) :=
  ⟨rfl, fun _ => rfl⟩

/-- Claim C9: for the fuzzy inference function built from the four
triangular input sets, four output sets, the four Mamdani rules and centroid
defuzzification over the integer-discretized domain [0,100]:
`infer 0 ≥ 90` and `infer 100 ≤ 20`. -/
theorem claim9_fuzzy_extremes : 90 ≤ infer 0 ∧ infer 100 ≤ 20 := by
  decide

/-- Claim C10: a nonempty sample whose keys all lie outside the eight-joint
registry yields score 0, empty score and deviation maps, and exactly the
positive message (not "No pose detected"). -/
theorem claim10_unknown_joints :
    ∀ sample : List (String × ℚ), sample ≠ [] →
      (∀ p ∈ sample, ∀ q ∈ ideal_angles, p.1 ≠ q.1) →
      analyze_posture sample
        = Option.some ⟨0, ["Great posture! Keep maintaining this stance."], [], []⟩ := by
  intro sample hne hdisj
  unfold analyze_posture
  rw [if_neg hne]
  have hl : analyzeLoop sample ideal_angles = Option.some (0, [], [], []) := by
    apply analyzeLoop_all_absent
    intro q hq
    apply getA_eq_none
    intro p hp
    exact hdisj p hp q hq
  rw [hl]
  rfl

/-- Claim C10 witness: a sample with only an unknown joint name. -/
theorem claim10_witness :
    analyze_posture [("foo", 5)]
      = Option.some ⟨0, ["Great posture! Keep maintaining this stance."], [], []⟩ :=
  claim10_unknown_joints [("foo", 5)] (by decide) (by decide)

/-- Claim C3: for every configured joint and every successfully computed
deviation, the below/above/within cases follow the spec's clamp formulas
(the source stores `'low'`/`'high'` for the spec's `below`/`above`); and in
the single-bad-joint scenario (left_shoulder measured at 90 against its
(30, 60) range) the computed deviation has direction above with percentage
100 > 20. -/
theorem claim3_deviation :
    (∀ j mn mx, (j, (mn, mx)) ∈ angle_ranges → ∀ m ideal d,
      computeDeviation mn mx m ideal = Option.some d →
      ((m < mn → d.direction = Direction.low
          ∧ d.percentage = max 0 (min 100 (100 * (mn - m) / (mn * 0.5))))
        ∧ (mx < m → d.direction = Direction.high
          ∧ d.percentage = max 0 (min 100 (100 * (m - mx) / (mx * 0.5))))
        ∧ (mn ≤ m → m ≤ mx → d.direction = Direction.none ∧ d.percentage = 0)))
    ∧ ((analyze_posture badShoulderSample).bind
          (fun fa => getA fa.deviations "left_shoulder")
        = Option.some ⟨100, Direction.high, 90, 45⟩
      ∧ (20 : ℚ) < 100) := by
  constructor
  · intro j mn mx hp m ideal d h
    have hb : 0 ≤ mn ∧ 0 ≤ mx ∧ mn ≤ mx := by
      simp only [angle_ranges, List.mem_cons, List.not_mem_nil, or_false, Prod.mk.injEq] at hp
      rcases hp with h | h | h | h | h | h | h | h <;> obtain ⟨-, rfl, rfl⟩ := h <;>
        exact ⟨by norm_num, by norm_num, by norm_num⟩
    exact computeDeviation_cases hb.1 hb.2.1 hb.2.2 h
  · exact ⟨by decide, by norm_num⟩

/-- Claim C3 witness: the formula cases applied to a below-range knees
measurement of 100 (range (170, 175)). -/
theorem claim3_deviation_witness :
    computeDeviation 170 175 100 172.5 = Option.some devW
    ∧ devW.direction = Direction.low
    ∧ devW.percentage = max 0 (min 100 (100 * (170 - 100) / (170 * 0.5))) := by
  refine ⟨by decide, ?_, ?_⟩
  · exact ((claim3_deviation.1 "knees" 170 175 (by decide) 100 172.5 devW (by decide)).1
      (by norm_num)).1
  · exact ((claim3_deviation.1 "knees" 170 175 (by decide) 100 172.5 devW (by decide)).1
      (by norm_num)).2

/-- Claim C1 (counterexample): stability values are not clamped to [0, 100].
On a two-frame sequence of negative knees angles the mean is -15 and the
standard deviation 5, so the variation percentage is -100/3 < 0 and the
stability score is 800/3 > 100. -/
theorem claim1_counterexample :
    (analyze_stability ratSqrt seqNeg).stability_score = 800/3
    ∧ ¬ (analyze_stability ratSqrt seqNeg).stability_score ≤ 100
    ∧ getA (analyze_stability ratSqrt seqNeg).variations "knees"
        = Option.some ⟨-15, 5, -100/3⟩
    ∧ ¬ (0 : ℚ) ≤ (-100/3 : ℚ) := by
  decide

/-- Claim C1 (amended): frame scores always lie in [0, 100] when analysis
succeeds; the stability score is always nonnegative; when every sampled
angle is nonnegative the stability score is at most 100 and every variation
percentage is nonnegative (variation percentages are not bounded by 100 in
general); and the session overall score lies in [0, 100] whenever every
frame score and the stability score do. -/
theorem claim1_bounds :
    (∀ sample fa, analyze_posture sample = Option.some fa → 0 ≤ fa.score ∧ fa.score ≤ 100)
    ∧ (∀ (sq : ℚ → ℚ) (seq : List (List (String × ℚ))),
        0 ≤ (analyze_stability sq seq).stability_score)
    ∧ (∀ (sq : ℚ → ℚ) (seq : List (List (String × ℚ))), (∀ q, 0 ≤ sq q) →
        (∀ frame ∈ seq, ∀ p ∈ frame, 0 ≤ p.2) →
        (analyze_stability sq seq).stability_score ≤ 100
        ∧ ∀ e ∈ (analyze_stability sq seq).variations, 0 ≤ e.2.variation_pct)
    ∧ (∀ pas st, (∀ fa ∈ pas, 0 ≤ fa.score ∧ fa.score ≤ 100) →
        0 ≤ st.stability_score → st.stability_score ≤ 100 →
        0 ≤ (generate_session_summary pas st).overall_score
        ∧ (generate_session_summary pas st).overall_score ≤ 100) := by
  refine ⟨?_, ?_, ?_, ?_⟩
  · intro sample fa h
    unfold analyze_posture at h
    split_ifs at h with hemp
    · injection h with h
      subst h
      norm_num
    · cases hl : analyzeLoop sample ideal_angles with
      | none => rw [hl] at h; exact Option.noConfusion h
      | some r =>
        obtain ⟨s, js, ds, fb⟩ := r
        rw [hl] at h
        injection h with h
        subst h
        have hb := analyzeLoop_bound sample ideal_angles _ hl
        have hws : weightSumL ideal_angles = 1 := by decide
        rw [hws] at hb
        exact ⟨hb.1, by dsimp only; linarith [hb.2]⟩
  · exact fun sq seq => stability_score_nonneg sq seq
  · exact fun sq seq hsq hvals => stability_score_le_100 hsq hvals
  · intro pas st hfa h0 h100
    cases pas with
    | nil => norm_num [generate_session_summary]
    | cons a rest =>
      have hov : (generate_session_summary (a :: rest) st).overall_score
          = 0.7 * meanQ ((a :: rest).map (fun x => x.score)) + 0.3 * st.stability_score := by
        simp [generate_session_summary]
      have hm0 : 0 ≤ meanQ ((a :: rest).map (fun x => x.score)) := by
        apply meanQ_nonneg
        intro v hv
        rw [List.mem_map] at hv
        obtain ⟨x, hx, rfl⟩ := hv
        exact (hfa x hx).1
      have hm100 : meanQ ((a :: rest).map (fun x => x.score)) ≤ 100 := by
        apply meanQ_le_100
        · simp
        · intro v hv
          rw [List.mem_map] at hv
          obtain ⟨x, hx, rfl⟩ := hv
          exact (hfa x hx).2
      rw [hov]
      constructor <;> nlinarith [hm0, hm100, h0, h100]

/-- Claim C1 witness: the bounds applied to a one-joint frame, a one-frame
stability sequence, and the blend scenario summary. -/
theorem claim1_bounds_witness :
    (0 ≤ faKnees.score ∧ faKnees.score ≤ 100)
    ∧ 0 ≤ (analyze_stability ratSqrt [[("hips", 180)]]).stability_score
    ∧ (analyze_stability ratSqrt [[("hips", 180)]]).stability_score ≤ 100
    ∧ (0 ≤ (generate_session_summary pasBlend stBlend).overall_score
       ∧ (generate_session_summary pasBlend stBlend).overall_score ≤ 100) := by
  refine ⟨claim1_bounds.1 sampleKnees faKnees (by decide), claim1_bounds.2.1 ratSqrt _,
    (claim1_bounds.2.2.1 ratSqrt [[("hips", 180)]] (fun q => ratSqrt_nonneg q) (by decide)).1,
    claim1_bounds.2.2.2 pasBlend stBlend (by decide) (by decide) (by decide)⟩

/-- Claim C4 (counterexample): the code excludes the positive message only
after sorting and truncating to the top 3, so when the positive message is
among the 3 most frequent strings the result differs from the claim's
exclude-before-sorting construction: on `pasC4` the code yields 2 entries,
the claimed construction 3. -/
theorem claim4_counterexample :
    (generate_session_summary pasC4 stZero).areas_to_improve
        = ["Adjust your hip position to be more upright",
           "Raise your left shoulder more to support the rifle"]
    ∧ areasClaimed pasC4 stZero
        = ["Adjust your hip position to be more upright",
           "Raise your left shoulder more to support the rifle",
           "Straighten your wrists more for consistent support"]
    ∧ (generate_session_summary pasC4 stZero).areas_to_improve ≠ areasClaimed pasC4 stZero := by
  decide

/-- Claim C4 (amended): the areas-to-improve list tallies all feedback
strings, sorts by descending frequency (stable), takes the top 3, only then
drops the positive "Great posture" message, appends an
"Improve <Joint> Stability" entry per unstable joint, and caps the combined
list at 3. -/
theorem claim4_areas :
    ∀ pas st, pas ≠ [] →
      (generate_session_summary pas st).areas_to_improve = areasAmended pas st := by
  intro pas st hne
  simp only [generate_session_summary, if_neg hne, areasAmended]
  rw [map_fst_filter (fun s => !(strIn "Great posture" s))]

/-- Claim C4 witness: the amended description evaluated on `pasC4`. -/
theorem claim4_areas_witness :
    (generate_session_summary pasC4 stZero).areas_to_improve = areasAmended pasC4 stZero :=
  claim4_areas pasC4 stZero (by decide)

/-- Claim C5 (counterexample): the recommendations list can contain
duplicates: one frame with two distinct shoulder-related feedback messages
makes the targeted-exercise rule fire twice with the same line, and no
duplicate suppression exists in the code. -/
theorem claim5_counterexample :
    (generate_session_summary pasC5 stC5).recommendations
        = ["Try shoulder strengthening exercises.", "Try shoulder strengthening exercises."]
    ∧ ¬ (generate_session_summary pasC5 stC5).recommendations.Nodup := by
  decide

/-- Claim C5 (amended): the recommendations are built by the ordered rules
(fundamentals for Needs Improvement/Fair, steady-hold for
Unstable/Moderately Stable, one targeted exercise message for each of the
first 2 areas-to-improve entries matched by substring, and the maintenance
message only when nothing fired) with no duplicate suppression. -/
theorem claim5_recs :
    ∀ pas st, pas ≠ [] →
      (generate_session_summary pas st).recommendations = recsAmended pas st := by
  intro pas st hne
  simp only [recsAmended, generate_session_summary, if_neg hne]
  rw [map_fst_filter (fun s => !(strIn "Great posture" s))]
  rw [List.take_take]
  norm_num

/-- Claim C5 witness: the amended description evaluated on `pasC5`. -/
theorem claim5_recs_witness :
    (generate_session_summary pasC5 stC5).recommendations = recsAmended pasC5 stC5 :=
  claim5_recs pasC5 stC5 (by decide)

/-- Claim C6: for every nonempty list of frame analyses the overall score is
the fixed 70/30 blend of the mean frame score and the stability score, and
the quality and stability labels follow the 85/70/50 breakpoints; the
5-frames-of-80 with stability 60 scenario yields 74.0, "Good" and
"Moderately Stable". -/
theorem claim6_blend :
    (∀ pas st, pas ≠ [] →
      (generate_session_summary pas st).overall_score
          = 0.7 * meanQ (pas.map (fun a => a.score)) + 0.3 * st.stability_score
        ∧ (generate_session_summary pas st).posture_quality
          = qualityLabel ((generate_session_summary pas st).overall_score)
        ∧ (generate_session_summary pas st).stability = stabilityLabel st.stability_score)
    ∧ ((generate_session_summary pasBlend stBlend).overall_score = 74
      ∧ (generate_session_summary pasBlend stBlend).posture_quality = "Good"
      ∧ (generate_session_summary pasBlend stBlend).stability = "Moderately Stable") := by
  constructor
  · intro pas st hne
    refine ⟨?_, ?_, ?_⟩ <;>
      simp [generate_session_summary, qualityLabel, stabilityLabel, if_neg hne]
  · exact ⟨by decide, by decide, by decide⟩

/-- Claim C6 witness: the blend equations instantiated on the scenario. -/
theorem claim6_blend_witness :
    (generate_session_summary pasBlend stBlend).overall_score
        = 0.7 * meanQ (pasBlend.map (fun a => a.score)) + 0.3 * stBlend.stability_score
    ∧ (generate_session_summary pasBlend stBlend).posture_quality
        = qualityLabel ((generate_session_summary pasBlend stBlend).overall_score)
    ∧ (generate_session_summary pasBlend stBlend).stability
        = stabilityLabel stBlend.stability_score :=
  claim6_blend.1 pasBlend stBlend (by decide)

/-- Claim C7: on every nonempty sample the frame analyzer's outputs are the
declarative joint-iteration-order maps: the score is the direct weighted sum
`Σ joint_score * weight` over the joints present in both the sample and the
registry, the score and deviation maps list those joints in registry order,
and the feedback is exactly the over-20-percent non-none deviations'
messages in that order, or the single positive message when there are none. -/
theorem claim7_structure :
    ∀ sample fa, sample ≠ [] → analyze_posture sample = Option.some fa →
      fa.score = scoreSpecL sample ideal_angles
      ∧ fa.joint_scores = jointScoresSpecL sample ideal_angles
      ∧ fa.deviations = deviationsSpecL sample ideal_angles
      ∧ fa.feedback = (if feedbackRawSpecL sample ideal_angles = []
          then ["Great posture! Keep maintaining this stance."]
          else feedbackRawSpecL sample ideal_angles) := by
  intro sample fa hne h
  unfold analyze_posture at h
  rw [if_neg hne] at h
  cases hl : analyzeLoop sample ideal_angles with
  | none => rw [hl] at h; exact Option.noConfusion h
  | some r =>
    obtain ⟨s, js, ds, fb⟩ := r
    rw [hl] at h
    injection h with h
    subst h
    obtain ⟨h1, h2, h3, h4⟩ := analyzeLoop_spec sample ideal_angles _ hl
    exact ⟨h1, h2, h3, by rw [← h4]⟩

/-- Claim C7 witness: the structure equations on a one-joint sample whose
neck angle is far above range. -/
theorem claim7_structure_witness :
    faNeck.score = scoreSpecL sampleNeck ideal_angles
    ∧ faNeck.joint_scores = jointScoresSpecL sampleNeck ideal_angles
    ∧ faNeck.deviations = deviationsSpecL sampleNeck ideal_angles
    ∧ faNeck.feedback = (if feedbackRawSpecL sampleNeck ideal_angles = []
        then ["Great posture! Keep maintaining this stance."]
        else feedbackRawSpecL sampleNeck ideal_angles) :=
  claim7_structure sampleNeck faNeck (by decide) (by decide)
